import Mathlib

/-!
Verification development for the block-stream ingestion and reconciliation
engine of the streamingfast graph-node fork.

The development shallowly embeds the relevant Rust source files:

* `graph/src/blockchain/block_stream_v2.rs` — the `BlockStream` state machine
  (`poll_next` loop over `BlockStreamState`).
* `graph/src/blockchain/firehose_block_ingestor.rs` — the live-tail and
  backfill ingestion loops with their store writes.
* `chain/solana/src/chain.rs` and `chain/solana/src/trigger.rs` — the Solana
  triggers adapter and firehose mapper.

Pure functions become Lean functions; the effectful store calls are modelled
by an explicit success oracle `ok : StoreOp → Bool` together with a trace of
the store operations that were actually attempted, in order.  Async futures
are modelled by supplying their poll outcomes as explicit inputs.  Rust
panics are modelled as explicit `panicked` outcomes.
-/

/-- `BlockPtr` (graph crate): a block identified by hash bytes and number. -/
structure BlockPtr where
  hash : List Nat
  number : Int
deriving DecidableEq, Repr

/-! ## block_stream_v2.rs : the BlockStream state machine

`BlockStreamContext` and `NextBlocks` live in `block_stream.rs`, which is not
part of the sources; the fields below are the ones the state machine reads
and writes (`max_block_range_size`, `previous_triggers_per_block`,
`previous_block_range_size`), with `previous_triggers_per_block` (an `f64`
in the source) modelled as a rational number. -/

/-- A block held by the stream state machine.  `poll_next` only ever consumes
`b.trigger_count()` from such a block, so the model keeps just that field. -/
structure BlockWithTriggersV2 where
  trigger_count : Nat
deriving DecidableEq, Repr

/-- Modelled from the spec: `NextBlocks` (block_stream.rs, not under src/) is
a variant over `Blocks(ordered list, batch size used)`, `Done` and
`Revert(pointer)`. -/
inductive NextBlocksV2 where
  | blocks (next_blocks : List BlockWithTriggersV2) (block_range_size : Nat)
  | done
  | revert (block : BlockPtr)
deriving DecidableEq, Repr

/-- One poll of the pending reconciliation future: either ready with a
`Result<NextBlocks, Error>` (the error payload is opaque) or pending. -/
inductive FuturePoll where
  | ready (r : Except Unit NextBlocksV2)
  | pending

/-- `BlockStreamState` from block_stream_v2.rs.  The pending futures inside
`Reconciliation` and `RetryAfterDelay` are externalized: their poll outcomes
are inputs of the step function. -/
inductive BlockStreamState where
  | beginReconciliation
  | reconciliation
  | yieldingBlocks (next_blocks : List BlockWithTriggersV2)
  | retryAfterDelay
  | idle
  | transition
deriving DecidableEq, Repr

/-- The fields of `BlockStreamContext` that block_stream_v2.rs touches. -/
structure BlockStreamCtx where
  max_block_range_size : Nat
  previous_triggers_per_block : ℚ
  previous_block_range_size : Nat
deriving DecidableEq, Repr

/-- The `BlockStream` struct: state, error counter and context.  The
`chain_head_update_stream` field of the source is never read by `poll_next`
in block_stream_v2.rs, so it has no counterpart here. -/
structure BlockStreamMachine where
  state : BlockStreamState
  consecutive_err_count : Nat
  ctx : BlockStreamCtx
deriving DecidableEq, Repr

/-- What one call of `poll_next` returns when its inner loop breaks.  The
source binds the break value to `result`; the break values are
`Ok(Poll::Ready(Some(BlockStreamEvent::Revert(block))))`, `Ok(Poll::Pending)`
and `Err(e)`.  `panicked` models `unreachable!()`. -/
inductive PollRes where
  | readyRevert (block : BlockPtr)
  | pendingOut
  | errOut
  | panicked
deriving DecidableEq, Repr

/-- Control flow of one iteration of the `loop` in `poll_next`: either
`continue` or `break` with a result. -/
inductive LoopControl where
  | cont
  | brk (r : PollRes)
deriving DecidableEq, Repr

/-- The `BlockStreamState::Reconciliation` arm of the `match` in `poll_next`
(block_stream_v2.rs lines 78-132), as a function of the machine and the poll
outcome of the pending `next_blocks` future.  Note that the
`Poll::Ready(Err(e))` arm of the source is only `break Err(e)` under a
"todo: to be implemented" comment: it changes neither the error counter nor
the state. -/
def reconcileArm (m : BlockStreamMachine) : FuturePoll → BlockStreamMachine × LoopControl
  | .ready (.ok (.blocks next_blocks block_range_size)) =>
    -- if self.consecutive_err_count == 1 then shrink the max range size by
    -- 10%, but to no less than 10
    let m := if m.consecutive_err_count = 1 then
        { m with ctx := { m.ctx with
            max_block_range_size := max (m.ctx.max_block_range_size * 9 / 10) 10 } }
      else m
    let m := { m with consecutive_err_count := 0 }
    let total_triggers := (next_blocks.map (fun b => b.trigger_count)).sum
    let m := { m with ctx := { m.ctx with
        previous_triggers_per_block := (total_triggers : ℚ) / (block_range_size : ℚ),
        previous_block_range_size := block_range_size } }
    ({ m with state := .yieldingBlocks next_blocks }, .cont)
  | .ready (.ok .done) =>
    ({ m with consecutive_err_count := 0, state := .idle }, .cont)
  | .ready (.ok (.revert block)) =>
    ({ m with state := .beginReconciliation }, .brk (.readyRevert block))
  | .pending =>
    ({ m with state := .reconciliation }, .brk .pendingOut)
  | .ready (.error _) =>
    (m, .brk .errOut)

/-- The `loop` of `poll_next`, with fuel.  Each time the machine is in
`Reconciliation` it consumes the next poll outcome from `polls`.  The arms
for `YieldingBlocks`, `Idle` and `RetryAfterDelay` are empty in the source
(`{}` or the catch-all `_ => {}`), so they neither change the state nor
break: the loop spins.  `none` means the call never returns within the given
fuel (for the empty arms it never returns at all, see the theorems). -/
def pollNextLoop : Nat → BlockStreamMachine → List FuturePoll →
    Option (BlockStreamMachine × PollRes × List FuturePoll)
  | 0, _, _ => none
  | fuel + 1, m, polls =>
    match m.state with
    | .beginReconciliation =>
      pollNextLoop fuel { m with state := .reconciliation } polls
    | .reconciliation =>
      match polls with
      | [] => none
      | p :: rest =>
        match reconcileArm m p with
        | (m2, .cont) => pollNextLoop fuel m2 rest
        | (m2, .brk r) => some (m2, r, rest)
    | .yieldingBlocks _ => pollNextLoop fuel m polls
    | .idle => pollNextLoop fuel m polls
    | .retryAfterDelay => pollNextLoop fuel m polls
    | .transition => some (m, .panicked, polls)

/-! ## firehose_block_ingestor.rs : the live-tail and backfill loops

The `ChainStore` trait is an external collaborator (not under src/); the
ingestor only calls it.  Each store call is modelled by a `StoreOp` value;
an oracle `ok : StoreOp → Bool` decides whether the call succeeds, and each
function returns the ordered trace of the store operations it actually
performed (attempted), successful or not. -/

/-- A decoded block as the ingestor sees it: `decode_firehose_block` yields a
`dyn Block`, of which the ingestor consumes `number()` and `ptr()`. -/
structure FirehoseBlock where
  number : Int
  hash : String
deriving DecidableEq, Repr

/-- `bstream::BlockResponseV2`: an envelope with a fork step, an opaque
cursor and an opaque encoded block payload (modelled as an integer token;
the ingestor never inspects it, only the decoder parameter does). -/
structure BlockResponseV2 where
  step : Int
  cursor : String
  payload : Int
deriving DecidableEq, Repr

/-- The store write operations the ingestor can attempt. -/
inductive StoreOp where
  | upsert_block (b : FirehoseBlock)
  | attempt_chain_head_update (ancestor_count : Int)
  | set_chain_head_cursor (c : String)
  | set_chain_backfill_cursor (c : String)
  | set_chain_backfill_target_block_num (n : Int)
deriving DecidableEq, Repr

/-- `FirehoseBlockIngestor::process_block` (firehose_block_ingestor.rs lines
255-280): decode, then `upsert_block`, then
`attempt_chain_head_update(ancestor_count)`, then
`set_chain_head_cursor(response.cursor)`, each one short-circuiting with `?`
on failure.  Returns the trace of attempted store operations and the
result (`Ok(Some(block))` on full success). -/
def process_block (dec : BlockResponseV2 → Option FirehoseBlock) (ok : StoreOp → Bool)
    (ancestor_count : Int) (response : BlockResponseV2) :
    List StoreOp × Except Unit (Option FirehoseBlock) :=
  match dec response with
  | none => ([], .error ())
  | some block =>
    let op1 := StoreOp.upsert_block block
    if ok op1 then
      let op2 := StoreOp.attempt_chain_head_update ancestor_count
      if ok op2 then
        let op3 := StoreOp.set_chain_head_cursor response.cursor
        if ok op3 then ([op1, op2, op3], .ok (some block))
        else ([op1, op2, op3], .error ())
      else ([op1, op2], .error ())
    else ([op1], .error ())

/-- The `while let Some(message) = stream.next().await` loop of
`FirehoseBlockIngestor::process_blocks` (lines 214-246).  The stream is the
list of messages it will yield; a `.error` message is a tonic stream error.
The boolean is the local `update_backfill_target_block` flag.  On the first
successfully processed block while the flag is set, the source calls the
async fn `set_backfill_target_block_num(block.number() as u64)` WITHOUT
`.await` (line 223): the returned future is dropped unpolled, so no store
operation is executed; only the local flag is cleared.  The model therefore
appends no `StoreOp` there.  On a stream error or a `process_block` error
the loop breaks before `latest_cursor = v.cursor`. -/
def process_blocks_loop (dec : BlockResponseV2 → Option FirehoseBlock) (ok : StoreOp → Bool)
    (ancestor_count : Int) :
    Bool → String → List (Except Unit BlockResponseV2) → String × List StoreOp
  | _, latest_cursor, [] => (latest_cursor, [])
  | _, latest_cursor, .error _ :: _ => (latest_cursor, [])
  | update_backfill_target_block, latest_cursor, .ok v :: rest =>
    match process_block dec ok ancestor_count v with
    | (t, .error _) => (latest_cursor, t)
    | (t, .ok opt) =>
      let flag2 :=
        match opt with
        | some _block =>
          -- un-awaited call of set_backfill_target_block_num: future dropped,
          -- no store operation happens, only the flag is cleared
          if update_backfill_target_block then false else update_backfill_target_block
        | none => update_backfill_target_block
      let r := process_blocks_loop dec ok ancestor_count flag2 v.cursor rest
      (r.1, t ++ r.2)

/-- `FirehoseBlockIngestor::process_blocks` (lines 192-253): reads the
backfill target from the store once (`target_read` is that read result),
sets `update_backfill_target_block` exactly when the read succeeded with
`None`, then runs the message loop and returns the final `latest_cursor`
together with the store-operation trace. -/
def process_blocks (dec : BlockResponseV2 → Option FirehoseBlock) (ok : StoreOp → Bool)
    (ancestor_count : Int) (target_read : Except Unit (Option Int)) (cursor : String)
    (msgs : List (Except Unit BlockResponseV2)) : String × List StoreOp :=
  let update_backfill_target_block :=
    match target_read with
    | .ok none => true
    | .ok (some _) => false
    | .error _ => false
  process_blocks_loop dec ok ancestor_count update_backfill_target_block cursor msgs

/-- `FirehoseBlockIngestor::process_backfill_block` (lines 316-335): decode,
`upsert_block`, `set_chain_backfill_cursor(response.cursor)`, each
short-circuiting with `?`. -/
def process_backfill_block (dec : BlockResponseV2 → Option FirehoseBlock) (ok : StoreOp → Bool)
    (response : BlockResponseV2) : List StoreOp × Except Unit Unit :=
  match dec response with
  | none => ([], .error ())
  | some block =>
    let op1 := StoreOp.upsert_block block
    if ok op1 then
      let op2 := StoreOp.set_chain_backfill_cursor response.cursor
      if ok op2 then ([op1, op2], .ok ())
      else ([op1, op2], .error ())
    else ([op1], .error ())

/-- The message loop of `FirehoseBlockIngestor::process_backfill_blocks`
(lines 289-307): like the live loop but with `process_backfill_block` and no
backfill-target flag. -/
def process_backfill_blocks (dec : BlockResponseV2 → Option FirehoseBlock) (ok : StoreOp → Bool) :
    String → List (Except Unit BlockResponseV2) → String × List StoreOp
  | latest_cursor, [] => (latest_cursor, [])
  | latest_cursor, .error _ :: _ => (latest_cursor, [])
  | latest_cursor, .ok v :: rest =>
    match process_backfill_block dec ok v with
    | (t, .error _) => (latest_cursor, t)
    | (t, .ok _) =>
      let r := process_backfill_blocks dec ok v.cursor rest
      (r.1, t ++ r.2)

/-- `bstream::ForkStep` of the firehose protocol.  Modelled from the spec:
the generated protobuf enum (bstream.proto is not under src/) with the
firehose fork-step numbering; the spec lists the four step kinds New, Undo,
Irreversible, Unknown. -/
inductive ForkStep where
  | step_unknown
  | step_new
  | step_undo
  | step_irreversible
deriving DecidableEq, Repr

/-- `ForkStep as i32` of the generated protobuf code. -/
def ForkStep.as_i32 : ForkStep → Int
  | .step_unknown => 0
  | .step_new => 1
  | .step_undo => 2
  | .step_irreversible => 4

/-- `ForkStep::from_i32` of the generated protobuf code: inverse of
`as_i32`, `none` on unrecognized values. -/
def ForkStep.from_i32 (v : Int) : Option ForkStep :=
  if v = 0 then some .step_unknown
  else if v = 1 then some .step_new
  else if v = 2 then some .step_undo
  else if v = 4 then some .step_irreversible
  else none

/-- The `i64 as u64` cast of Rust, on the mathematical integers. -/
def asU64 (x : Int) : Nat := (x % (2 : Int) ^ 64).toNat

/-- `bstream::BlocksRequestV2` as built by the ingestor (the fields it
sets; the rest are protobuf defaults).  `fork_steps` holds `i32` values as
in the source (`ForkStep::... as i32`). -/
structure BlocksRequestV2 where
  start_block_num : Int
  stop_block_num : Nat
  start_cursor : String
  fork_steps : List Int
deriving DecidableEq, Repr

/-- One iteration of `FirehoseBlockIngestor::run_backfill` (lines 89-106)
up to the point where the stream request is issued: with the fetched
backfill target and cursor, either sleep and retry (target 0: no request)
or build the `BlocksRequestV2` with `start_block_num: 0`,
`stop_block_num: backfill_target as u64` and
`fork_steps: vec![StepIrreversible as i32]`. -/
def run_backfill_request (backfill_target : Int) (backfill_cursor : String) :
    Option BlocksRequestV2 :=
  if backfill_target = 0 then none
  else some
    { start_block_num := 0
      stop_block_num := asU64 backfill_target
      start_cursor := backfill_cursor
      fork_steps := [ForkStep.step_irreversible.as_i32] }

/-- The `BlocksRequestV2` built by the live-tail loop `run` (lines 59-71):
`start_block_num: -1`, resume cursor, `fork_steps: vec![StepNew as i32,
StepUndo as i32]`. -/
def run_live_request (latest_cursor : String) : BlocksRequestV2 :=
  { start_block_num := -1
    stop_block_num := 0
    start_cursor := latest_cursor
    fork_steps := [ForkStep.step_new.as_i32, ForkStep.step_undo.as_i32] }

/-! ## chain/solana : codec types, triggers and the firehose mapper

The `codec` module is generated protobuf code (not under src/); the fields
modelled are exactly the ones chain.rs and trigger.rs consume: a block has
`number`, `id` and `transactions`; a transaction has `id` and
`instructions`; an instruction has the four fields the `PartialEq` of
`SolanaTrigger` compares. -/

namespace Codec

/-- `codec::Instruction`, with the fields read by trigger.rs. -/
structure Instruction where
  program_id : List Nat
  ordinal : Nat
  parent_ordinal : Nat
  depth : Nat
deriving DecidableEq, Repr

/-- `codec::Transaction`, with the fields read by chain.rs. -/
structure Transaction where
  id : List Nat
  instructions : List Instruction
deriving DecidableEq, Repr

/-- `codec::Block`, with the fields read by chain.rs and trigger.rs. -/
structure Block where
  number : Nat
  id : List Nat
  transactions : List Transaction
deriving DecidableEq, Repr

/-- Modelled from the spec: `Block::ptr()` of the generated codec (DecodedBlock
`pointer()` per the spec) returns the block pointer made of the block id and
number. -/
def Block.ptr (b : Block) : BlockPtr := ⟨b.id, (b.number : Int)⟩

end Codec

/-- `InstructionWithInfo` from trigger.rs. -/
structure InstructionWithInfo where
  instruction : Codec.Instruction
  block_num : Nat
  block_id : List Nat
  transaction_id : List Nat
deriving DecidableEq, Repr

/-- `SolanaTrigger` from trigger.rs: a block-level trigger or an instruction
trigger. -/
inductive SolanaTrigger where
  | block (b : Codec.Block)
  | instruction (i : InstructionWithInfo)
deriving DecidableEq, Repr

/-- The `Ord` impl for `SolanaTrigger` (trigger.rs lines 107-122): block
triggers compare equal among themselves and greater than anything else
(they always come last); instruction triggers compare equal among
themselves so that array order is kept by the (stable) sort. -/
def SolanaTrigger.cmp : SolanaTrigger → SolanaTrigger → Ordering
  | .block _, .block _ => .eq
  | .block _, _ => .gt
  | _, .block _ => .lt
  | .instruction _, .instruction _ => .eq

/-- `BlockWithTriggers<Chain>` instantiated at the Solana chain. -/
structure BlockWithTriggers where
  block : Codec.Block
  trigger_data : List SolanaTrigger
deriving Repr

/-- Modelled from the spec: `BlockWithTriggers::new` (block_stream.rs, not
under src/) stores the block and the trigger list ordered by the
chain-specific `Ord`: block-level triggers sort after all intra-block
triggers and intra-block relative order is preserved as produced (stable,
not re-sorted).  Modelled as a stable merge sort by `SolanaTrigger.cmp`
(`le a b` iff `cmp a b` is not `Greater`, as for a Rust stable sort). -/
def BlockWithTriggers.new (block : Codec.Block) (trigger_data : List SolanaTrigger) :
    BlockWithTriggers :=
  ⟨block, trigger_data.mergeSort (fun a b => a.cmp b != Ordering.gt)⟩

/-- The per-transaction, per-instruction iteration of
`TriggersAdapter::triggers_in_block` (chain.rs lines 200-212): for each
transaction of the block, in order, and for each of its instructions, in
order, an `InstructionWithInfo` carrying the block number, block id and
transaction id. -/
def instruction_infos (block : Codec.Block) : List InstructionWithInfo :=
  block.transactions.flatMap (fun transaction =>
    transaction.instructions.map (fun instruction =>
      { instruction := instruction
        block_num := block.number
        block_id := block.id
        transaction_id := transaction.id }))

/-- `TriggersAdapter::triggers_in_block` (chain.rs lines 193-220): the
instruction triggers are collected, then the block-level trigger is pushed
at the end, and `BlockWithTriggers::new` is applied. -/
def triggers_in_block (block : Codec.Block) : BlockWithTriggers :=
  let trigger_data :=
    (instruction_infos block).map SolanaTrigger.instruction ++ [SolanaTrigger.block block]
  BlockWithTriggers.new block trigger_data

/-- `firehose::Response` as consumed by
`FirehoseMapper::to_block_stream_event`: a step value, a cursor and an
optional opaque encoded block payload. -/
structure FirehoseResponse where
  step : Int
  cursor : String
  block : Option Int
deriving DecidableEq, Repr

/-- `BlockStreamEvent<Chain>` as built by chain.rs: `ProcessBlock` with the
triggers and cursor, or `Revert` with pointer, cursor and optional parent
pointer. -/
inductive SolanaBlockStreamEvent where
  | processBlock (b : BlockWithTriggers) (cursor : Option String)
  | revert (ptr : BlockPtr) (cursor : Option String) (parent : Option BlockPtr)
deriving Repr

/-- Outcome of `to_block_stream_event`: an event, a `FirehoseError` (from
the `?` on block decoding), or a panic of the enclosing process. -/
inductive MapperResult where
  | ok (e : SolanaBlockStreamEvent)
  | err
  | panicked (msg : String)
deriving Repr

/-- `FirehoseMapper::to_block_stream_event` (chain.rs lines 242-298).
`dec` is `codec::Block::decode` on the payload.  The source panics, in
order: on a step value `from_i32` does not recognize, on an absent block
payload (`expect`), and on the `StepIrreversible` and `StepUnknown` arms;
the `StepUndo` arm builds a `Revert` with `None` as the parent pointer
(under a todo comment). -/
def to_block_stream_event (dec : Int → Except Unit Codec.Block)
    (response : FirehoseResponse) : MapperResult :=
  match ForkStep.from_i32 response.step with
  | none => .panicked "unknown step i32 value"
  | some step =>
    match response.block with
    | none => .panicked "block payload information should always be present"
    | some any_block =>
      match dec any_block with
      | .error _ => .err
      | .ok block =>
        match step with
        | .step_new =>
          .ok (.processBlock (triggers_in_block block) (some response.cursor))
        | .step_undo =>
          .ok (.revert block.ptr (some response.cursor) none)
        | .step_irreversible =>
          .panicked "irreversible step is not handled and should not be requested in the Firehose request"
        | .step_unknown =>
          .panicked "unknown step should not happen in the Firehose response"



/-! ## Theorems about the BlockStream state machine -/

/-- C1.  The claim says that a successful reconciliation preceded by exactly
one consecutive error shrinks `max_block_range_size` to
`floor(previous * 9/10)` clamped to at least 10.  On the code this fails:
the error arm of the `Reconciliation` state (marked "todo: to be
implemented") never increments `consecutive_err_count`, so after an error
followed by a `Blocks` result the counter is still 0 and the range size is
left at 100 instead of the claimed 90.  The first conjunct evaluates the
first `poll_next` call (reconciliation errors, counter stays 0, the call
surfaces the error); the second evaluates the `Reconciliation` arm on the
following `Blocks` result and shows the range cap unchanged. -/
theorem err_then_blocks_does_not_shrink_range :
    pollNextLoop 5 ⟨.beginReconciliation, 0, ⟨100, 0, 0⟩⟩ [.ready (.error ())]
        = some (⟨.reconciliation, 0, ⟨100, 0, 0⟩⟩, .errOut, [])
    ∧ ((reconcileArm ⟨.reconciliation, 0, ⟨100, 0, 0⟩⟩
          (.ready (.ok (.blocks [] 5)))).1.ctx.max_block_range_size = 100)
    ∧ (100 : Nat) ≠ max (100 * 9 / 10) 10 :=
  ⟨rfl, rfl, by decide⟩

/-- C3.  The claim says an error completion increments
`consecutive_err_count`, moves to `RetryAfterDelay` and emits nothing.  The
code does none of that: the error arm leaves the whole machine unchanged
(counter not incremented, state still `Reconciliation`) and breaks out of
the loop with `Err(e)`, surfacing the error. -/
theorem error_arm_leaves_machine_and_surfaces_error (m : BlockStreamMachine) :
    reconcileArm m (.ready (.error ())) = (m, .brk .errOut) := rfl

/-- C4.  The `Done` half of the claim holds: the `Done` arm resets
`consecutive_err_count` and switches to `Idle` (first conjunct).  The
`Idle` half fails on the code: the `Idle` arm of the `poll_next` match is
empty (`BlockStreamState::Idle => {}`), so the loop spins forever — it
never polls `chain_head_update_stream`, never reaches
`BeginReconciliation`, and the poll never returns, for every fuel bound and
every input (second conjunct). -/
theorem done_goes_idle_and_idle_spins_forever :
    (∀ m : BlockStreamMachine,
      reconcileArm m (.ready (.ok .done))
        = ({ m with consecutive_err_count := 0, state := .idle }, .cont))
    ∧ ∀ (fuel n : Nat) (c : BlockStreamCtx) (polls : List FuturePoll),
        pollNextLoop fuel ⟨.idle, n, c⟩ polls = none := by
  constructor
  · intro m; rfl
  · intro fuel
    induction fuel with
    | zero => intro n c polls; rfl
    | succ k ih => intro n c polls; simpa [pollNextLoop] using ih n c polls

/-! ## Theorems about the firehose block ingestor -/

/-- C2.  For a live-tail envelope whose payload decodes, the store writes of
`process_block` are attempted in the causal order upsert, chain-head
recompute with `ancestor_count`, cursor write; each `?` short-circuits, so a
failing write prevents every later write for that envelope. -/
theorem process_block_write_order (dec : BlockResponseV2 → Option FirehoseBlock)
    (ok : StoreOp → Bool) (ac : Int) (resp : BlockResponseV2) (b : FirehoseBlock)
    (hdec : dec resp = some b) :
    (ok (StoreOp.upsert_block b) = false →
      process_block dec ok ac resp = ([StoreOp.upsert_block b], .error ()))
    ∧ (ok (StoreOp.upsert_block b) = true →
        ok (StoreOp.attempt_chain_head_update ac) = false →
        process_block dec ok ac resp
          = ([StoreOp.upsert_block b, StoreOp.attempt_chain_head_update ac], .error ()))
    ∧ (ok (StoreOp.upsert_block b) = true →
        ok (StoreOp.attempt_chain_head_update ac) = true →
        ok (StoreOp.set_chain_head_cursor resp.cursor) = false →
        process_block dec ok ac resp
          = ([StoreOp.upsert_block b, StoreOp.attempt_chain_head_update ac,
              StoreOp.set_chain_head_cursor resp.cursor], .error ()))
    ∧ (ok (StoreOp.upsert_block b) = true →
        ok (StoreOp.attempt_chain_head_update ac) = true →
        ok (StoreOp.set_chain_head_cursor resp.cursor) = true →
        process_block dec ok ac resp
          = ([StoreOp.upsert_block b, StoreOp.attempt_chain_head_update ac,
              StoreOp.set_chain_head_cursor resp.cursor], .ok (some b))) := by
  refine ⟨?_, ?_, ?_, ?_⟩ <;> intros <;> simp_all [process_block]

/-- A concrete decoder for witnesses: the payload token is the block number. -/
def dec0 : BlockResponseV2 → Option FirehoseBlock := fun r => some ⟨r.payload, "h"⟩

/-- A store oracle on which every operation succeeds. -/
def okAll : StoreOp → Bool := fun _ => true

/-- Witness for C2, on a fully successful store. -/
theorem process_block_write_order_witness :
    process_block dec0 okAll 3 ⟨1, "c1", 7⟩
      = ([StoreOp.upsert_block ⟨7, "h"⟩, StoreOp.attempt_chain_head_update 3,
          StoreOp.set_chain_head_cursor "c1"], .ok (some ⟨7, "h"⟩)) :=
  (process_block_write_order dec0 okAll 3 ⟨1, "c1", 7⟩ ⟨7, "h"⟩ rfl).2.2.2 rfl rfl rfl

/-- The spec scenario for backfill seeding: no backfill target set, live
blocks 1000 then 1001 arrive and are fully processed. -/
def msgs0 : List (Except Unit BlockResponseV2) :=
  [.ok ⟨1, "c1", 1000⟩, .ok ⟨1, "c2", 1001⟩]

/-- C6.  The claim says the first successfully processed live block seeds
the backfill target exactly once.  On the code this fails: line 223 calls
the async fn `set_backfill_target_block_num(block.number() as u64)` without
`.await`, so the returned future is dropped unpolled and the store write is
never executed.  In the spec scenario (target unset, blocks 1000 and 1001
processed successfully) the full store trace contains no
`set_chain_backfill_target_block_num` operation at all. -/
theorem backfill_target_never_seeded :
    process_blocks dec0 okAll 3 (.ok none) "start" msgs0
      = ("c2",
          [StoreOp.upsert_block ⟨1000, "h"⟩, StoreOp.attempt_chain_head_update 3,
           StoreOp.set_chain_head_cursor "c1",
           StoreOp.upsert_block ⟨1001, "h"⟩, StoreOp.attempt_chain_head_update 3,
           StoreOp.set_chain_head_cursor "c2"])
    ∧ ∀ n, StoreOp.set_chain_backfill_target_block_num n
        ∉ (process_blocks dec0 okAll 3 (.ok none) "start" msgs0).2 := by
  refine ⟨rfl, ?_⟩
  intro n hn
  rw [show (process_blocks dec0 okAll 3 (.ok none) "start" msgs0).2
      = [StoreOp.upsert_block ⟨1000, "h"⟩, StoreOp.attempt_chain_head_update 3,
         StoreOp.set_chain_head_cursor "c1",
         StoreOp.upsert_block ⟨1001, "h"⟩, StoreOp.attempt_chain_head_update 3,
         StoreOp.set_chain_head_cursor "c2"] from rfl] at hn
  simp at hn

/-- Every store operation attempted by `process_backfill_block` is the
upsert of the decoded block or the backfill-cursor write. -/
theorem process_backfill_block_ops (dec : BlockResponseV2 → Option FirehoseBlock)
    (ok : StoreOp → Bool) (resp : BlockResponseV2) (op : StoreOp)
    (h : op ∈ (process_backfill_block dec ok resp).1) :
    (∃ b, dec resp = some b ∧ op = StoreOp.upsert_block b)
    ∨ op = StoreOp.set_chain_backfill_cursor resp.cursor := by
  unfold process_backfill_block at h
  cases hd : dec resp with
  | none => simp [hd] at h
  | some b =>
    by_cases h1 : ok (StoreOp.upsert_block b) = true
    · by_cases h2 : ok (StoreOp.set_chain_backfill_cursor resp.cursor) = true
      · simp [hd, h1, h2] at h
        rcases h with rfl | rfl
        · exact Or.inl ⟨b, rfl, rfl⟩
        · exact Or.inr rfl
      · simp [hd, h1, h2] at h
        rcases h with rfl | rfl
        · exact Or.inl ⟨b, rfl, rfl⟩
        · exact Or.inr rfl
    · simp [hd, h1] at h
      subst h
      exact Or.inl ⟨b, rfl, rfl⟩

/-- Every store operation in the trace of the whole backfill message loop is
a block upsert or a backfill-cursor write. -/
theorem process_backfill_blocks_ops (dec : BlockResponseV2 → Option FirehoseBlock)
    (ok : StoreOp → Bool) :
    ∀ (msgs : List (Except Unit BlockResponseV2)) (cursor : String) (op : StoreOp),
    op ∈ (process_backfill_blocks dec ok cursor msgs).2 →
    (∃ b, op = StoreOp.upsert_block b)
    ∨ ∃ c, op = StoreOp.set_chain_backfill_cursor c := by
  intro msgs
  induction msgs with
  | nil => intro cursor op h; simp [process_backfill_blocks] at h
  | cons m rest ih =>
    intro cursor op h
    cases m with
    | error e => simp [process_backfill_blocks] at h
    | ok v =>
      rw [process_backfill_blocks] at h
      rcases hp : process_backfill_block dec ok v with ⟨t, r⟩
      rw [hp] at h
      have ht : ∀ x, x ∈ t → x ∈ (process_backfill_block dec ok v).1 := by
        intro x hx; rw [hp]; exact hx
      cases r with
      | error e =>
        simp at h
        rcases process_backfill_block_ops dec ok v op (ht op h) with ⟨b, _, rfl⟩ | rfl
        · exact Or.inl ⟨b, rfl⟩
        · exact Or.inr ⟨v.cursor, rfl⟩
      | ok u =>
        simp at h
        rcases h with h | h
        · rcases process_backfill_block_ops dec ok v op (ht op h) with ⟨b, _, rfl⟩ | rfl
          · exact Or.inl ⟨b, rfl⟩
          · exact Or.inr ⟨v.cursor, rfl⟩
        · exact ih v.cursor op h

/-- C7.  The backfill loop requests `fork_steps = [StepIrreversible]` from
start block 0 up to the stored target (as u64), resuming from the backfill
cursor; and each backfill block only upserts the block and writes the
backfill cursor — the trace never contains a chain-head update or a
live-tail resume-cursor write. -/
theorem backfill_irreversible_only_and_frame :
    (∀ (target : Int) (cursor : String) (req : BlocksRequestV2),
      run_backfill_request target cursor = some req →
      req.fork_steps = [ForkStep.step_irreversible.as_i32]
        ∧ req.start_block_num = 0
        ∧ req.stop_block_num = asU64 target
        ∧ req.start_cursor = cursor)
    ∧ (∀ (dec : BlockResponseV2 → Option FirehoseBlock) (ok : StoreOp → Bool)
        (resp : BlockResponseV2) (op : StoreOp),
        op ∈ (process_backfill_block dec ok resp).1 →
        (∃ b, dec resp = some b ∧ op = StoreOp.upsert_block b)
        ∨ op = StoreOp.set_chain_backfill_cursor resp.cursor)
    ∧ (∀ (dec : BlockResponseV2 → Option FirehoseBlock) (ok : StoreOp → Bool)
        (msgs : List (Except Unit BlockResponseV2)) (cursor : String) (op : StoreOp),
        op ∈ (process_backfill_blocks dec ok cursor msgs).2 →
        (∃ b, op = StoreOp.upsert_block b)
        ∨ ∃ c, op = StoreOp.set_chain_backfill_cursor c) := by
  refine ⟨?_, process_backfill_block_ops, ?_⟩
  · intro target cursor req h
    unfold run_backfill_request at h
    by_cases ht : target = 0
    · simp [ht] at h
    · rw [if_neg ht] at h
      have hr := Option.some.inj h
      subst hr
      exact ⟨rfl, rfl, rfl, rfl⟩
  · intro dec ok msgs cursor op h
    exact process_backfill_blocks_ops dec ok msgs cursor op h

/-- Witness for C7, at target 1000 and a two-operation backfill block. -/
theorem backfill_irreversible_only_and_frame_witness :
    ((⟨0, asU64 1000, "bc", [ForkStep.step_irreversible.as_i32]⟩ :
        BlocksRequestV2).fork_steps = [ForkStep.step_irreversible.as_i32]
      ∧ (⟨0, asU64 1000, "bc", [ForkStep.step_irreversible.as_i32]⟩ :
        BlocksRequestV2).start_block_num = 0
      ∧ (⟨0, asU64 1000, "bc", [ForkStep.step_irreversible.as_i32]⟩ :
        BlocksRequestV2).stop_block_num = asU64 1000
      ∧ (⟨0, asU64 1000, "bc", [ForkStep.step_irreversible.as_i32]⟩ :
        BlocksRequestV2).start_cursor = "bc")
    ∧ ((∃ b, dec0 ⟨1, "c1", 7⟩ = some b
          ∧ StoreOp.upsert_block ⟨7, "h"⟩ = StoreOp.upsert_block b)
        ∨ StoreOp.upsert_block ⟨7, "h"⟩
          = StoreOp.set_chain_backfill_cursor (⟨1, "c1", 7⟩ : BlockResponseV2).cursor)
    ∧ ((∃ b, StoreOp.upsert_block ⟨7, "h"⟩ = StoreOp.upsert_block b)
        ∨ ∃ c, StoreOp.upsert_block ⟨7, "h"⟩ = StoreOp.set_chain_backfill_cursor c) :=
  ⟨backfill_irreversible_only_and_frame.1 1000 "bc" _ rfl,
   backfill_irreversible_only_and_frame.2.1 dec0 okAll ⟨1, "c1", 7⟩ _ (List.Mem.head _),
   backfill_irreversible_only_and_frame.2.2 dec0 okAll [.ok ⟨1, "c1", 7⟩] "bc" _
     (List.Mem.head _)⟩

/-- On the live loop, the returned resume cursor is the cursor of the last
successfully processed envelope before the first failure. -/
theorem process_blocks_loop_stops_at_failure
    (dec : BlockResponseV2 → Option FirehoseBlock) (ok : StoreOp → Bool) (ac : Int) :
    ∀ (good : List BlockResponseV2) (flag : Bool) (cursor : String)
      (bad : Except Unit BlockResponseV2) (rest : List (Except Unit BlockResponseV2)),
    (∀ v ∈ good, ∃ b, (process_block dec ok ac v).2 = .ok b) →
    (∀ v, bad = .ok v → (process_block dec ok ac v).2 = .error ()) →
    (process_blocks_loop dec ok ac flag cursor (good.map .ok ++ bad :: rest)).1
      = (good.map (fun v => v.cursor)).getLastD cursor := by
  intro good
  induction good with
  | nil =>
    intro flag cursor bad rest _ hbad
    cases bad with
    | error e => simp [process_blocks_loop]
    | ok v =>
      rcases hp : process_block dec ok ac v with ⟨t, r⟩
      have h2 := hbad v rfl
      rw [hp] at h2
      simp only at h2
      subst h2
      simp [process_blocks_loop, hp]
  | cons v good ih =>
    intro flag cursor bad rest hgood hbad
    obtain ⟨b, hb⟩ := hgood v (List.mem_cons_self v _)
    rcases hp : process_block dec ok ac v with ⟨t, r⟩
    rw [hp] at hb
    simp only at hb
    subst hb
    simp only [List.map_cons, List.cons_append, process_blocks_loop, hp,
      List.getLastD_cons]
    exact ih _ v.cursor bad rest (fun w hw => hgood w (List.mem_cons_of_mem _ hw)) hbad

/-- On the backfill loop, the returned backfill cursor is the cursor of the
last successfully processed envelope before the first failure. -/
theorem process_backfill_blocks_stops_at_failure
    (dec : BlockResponseV2 → Option FirehoseBlock) (ok : StoreOp → Bool) :
    ∀ (good : List BlockResponseV2) (cursor : String)
      (bad : Except Unit BlockResponseV2) (rest : List (Except Unit BlockResponseV2)),
    (∀ v ∈ good, (process_backfill_block dec ok v).2 = .ok ()) →
    (∀ v, bad = .ok v → (process_backfill_block dec ok v).2 = .error ()) →
    (process_backfill_blocks dec ok cursor (good.map .ok ++ bad :: rest)).1
      = (good.map (fun v => v.cursor)).getLastD cursor := by
  intro good
  induction good with
  | nil =>
    intro cursor bad rest _ hbad
    cases bad with
    | error e => simp [process_backfill_blocks]
    | ok v =>
      rcases hp : process_backfill_block dec ok v with ⟨t, r⟩
      have h2 := hbad v rfl
      rw [hp] at h2
      simp only at h2
      subst h2
      simp [process_backfill_blocks, hp]
  | cons v good ih =>
    intro cursor bad rest hgood hbad
    have hb := hgood v (List.mem_cons_self v _)
    rcases hp : process_backfill_block dec ok v with ⟨t, r⟩
    rw [hp] at hb
    simp only at hb
    subst hb
    simp only [List.map_cons, List.cons_append, process_backfill_blocks, hp,
      List.getLastD_cons]
    exact ih v.cursor bad rest (fun w hw => hgood w (List.mem_cons_of_mem _ hw)) hbad

/-- C10.  In both message loops, a failure (stream error, decode error or
store-write error) breaks the loop before `latest_cursor = v.cursor`, so the
cursor handed back to the reconnect loop is the cursor of the last
successfully processed envelope — the resume position never advances past a
failed block. -/
theorem cursor_never_advances_past_failure :
    (∀ (dec : BlockResponseV2 → Option FirehoseBlock) (ok : StoreOp → Bool) (ac : Int)
      (good : List BlockResponseV2) (flag : Bool) (cursor : String)
      (bad : Except Unit BlockResponseV2) (rest : List (Except Unit BlockResponseV2)),
      (∀ v ∈ good, ∃ b, (process_block dec ok ac v).2 = .ok b) →
      (∀ v, bad = .ok v → (process_block dec ok ac v).2 = .error ()) →
      (process_blocks_loop dec ok ac flag cursor (good.map .ok ++ bad :: rest)).1
        = (good.map (fun v => v.cursor)).getLastD cursor)
    ∧ (∀ (dec : BlockResponseV2 → Option FirehoseBlock) (ok : StoreOp → Bool)
      (good : List BlockResponseV2) (cursor : String)
      (bad : Except Unit BlockResponseV2) (rest : List (Except Unit BlockResponseV2)),
      (∀ v ∈ good, (process_backfill_block dec ok v).2 = .ok ()) →
      (∀ v, bad = .ok v → (process_backfill_block dec ok v).2 = .error ()) →
      (process_backfill_blocks dec ok cursor (good.map .ok ++ bad :: rest)).1
        = (good.map (fun v => v.cursor)).getLastD cursor) :=
  ⟨fun dec ok ac => process_blocks_loop_stops_at_failure dec ok ac,
   fun dec ok => process_backfill_blocks_stops_at_failure dec ok⟩

/-- A store oracle that rejects the upsert of block number 8 and accepts
everything else. -/
def okNot8 : StoreOp → Bool := fun op =>
  match op with
  | .upsert_block b => b.number != 8
  | _ => true

/-- Witness for C10: one good envelope (block 7, cursor c1), then an
envelope whose upsert fails (block 8); both loops report cursor c1. -/
theorem cursor_never_advances_past_failure_witness :
    (process_blocks_loop dec0 okNot8 3 true "start"
        ([⟨1, "c1", 7⟩].map .ok ++ .ok ⟨1, "cbad", 8⟩ :: [])).1
      = ([(⟨1, "c1", 7⟩ : BlockResponseV2)].map (fun v => v.cursor)).getLastD "start"
    ∧ (process_backfill_blocks dec0 okNot8 "start"
        ([⟨1, "c1", 7⟩].map .ok ++ .ok ⟨1, "cbad", 8⟩ :: [])).1
      = ([(⟨1, "c1", 7⟩ : BlockResponseV2)].map (fun v => v.cursor)).getLastD "start" :=
  ⟨cursor_never_advances_past_failure.1 dec0 okNot8 3 [⟨1, "c1", 7⟩] true "start"
      (.ok ⟨1, "cbad", 8⟩) []
      (by
        intro v hv
        rw [List.mem_singleton] at hv
        subst hv
        exact ⟨some ⟨7, "h"⟩, rfl⟩)
      (by
        intro v hv
        cases hv
        rfl),
   cursor_never_advances_past_failure.2 dec0 okNot8 [⟨1, "c1", 7⟩] "start"
      (.ok ⟨1, "cbad", 8⟩) []
      (by
        intro v hv
        rw [List.mem_singleton] at hv
        subst hv
        rfl)
      (by
        intro v hv
        cases hv
        rfl)⟩

/-! ## Theorems about the Solana mapper and triggers -/

/-- A concrete payload decoder for the mapper theorems: token `p` decodes to
a transactionless block with number `p` and id `[1]`. -/
def decB : Int → Except Unit Codec.Block := fun p => .ok ⟨p.toNat, [1], []⟩

/-- C5.  The claim says a `Revert` event always carries a fully resolved
parent pointer.  On the code this fails: the `StepUndo` arm of
`to_block_stream_event` (under a todo comment, with the parent-pointer
lookup commented out) always passes `None` as the parent pointer.  Here a
concrete `Undo` envelope for block 7 produces a `Revert` whose parent
pointer is `none`. -/
theorem undo_revert_has_no_parent_ptr :
    to_block_stream_event decB ⟨2, "c", some 7⟩
      = .ok (.revert ⟨[1], 7⟩ (some "c") none) := rfl

/-- C8 counterexample.  The claim says no reachable input makes the core
panic.  A live envelope carrying fork step `StepIrreversible` (i32 value 4)
with a decodable payload drives `to_block_stream_event` into `panic!`. -/
theorem mapper_panics_on_irreversible :
    to_block_stream_event decB ⟨4, "c", some 7⟩
      = .panicked
        "irreversible step is not handled and should not be requested in the Firehose request"
      := rfl

/-- C8 amended.  The mapper panics on `StepIrreversible`, `StepUnknown`,
unrecognized step values and missing block payloads; but for a `StepNew` or
`StepUndo` envelope carrying a block payload it never panics: it returns an
event or a decode error. -/
theorem mapper_no_panic_on_new_undo (dec : Int → Except Unit Codec.Block)
    (resp : FirehoseResponse) (h : resp.step = 1 ∨ resp.step = 2)
    (p : Int) (hb : resp.block = some p) (msg : String) :
    to_block_stream_event dec resp ≠ .panicked msg := by
  rcases h with h | h <;>
  · unfold to_block_stream_event
    rw [h, hb]
    cases hd : dec p with
    | error e => simp [ForkStep.from_i32, hd]
    | ok block => simp [ForkStep.from_i32, hd]

/-- Witness for C8 amended, on a `StepNew` envelope. -/
theorem mapper_no_panic_on_new_undo_witness :
    to_block_stream_event decB ⟨1, "c", some 7⟩ ≠ .panicked "x" :=
  mapper_no_panic_on_new_undo decB ⟨1, "c", some 7⟩ (Or.inl rfl) 7 rfl "x"

/-- The trigger list built by `triggers_in_block` before ordering — all
instruction triggers in iteration order, then the block trigger — is already
sorted for the `SolanaTrigger` comparator (instructions compare equal among
themselves and less than the block trigger). -/
theorem pairwise_le_instructions_block (b : Codec.Block) (l : List InstructionWithInfo) :
    List.Pairwise (fun x y : SolanaTrigger => (x.cmp y != Ordering.gt) = true)
      (l.map SolanaTrigger.instruction ++ [SolanaTrigger.block b]) := by
  induction l with
  | nil => simp
  | cons i t ih =>
    refine List.Pairwise.cons ?_ ih
    intro y hy
    rcases List.mem_append.mp hy with hy | hy
    · rcases List.mem_map.mp hy with ⟨j, _, rfl⟩
      rfl
    · rw [List.mem_singleton] at hy
      subst hy
      rfl

/-- C9.  The trigger list of every `BlockWithTriggers` built by
`triggers_in_block` is exactly the instruction triggers in the order of the
iteration over transactions and their instructions, followed by the single
block-level trigger: the stable sort of `BlockWithTriggers::new` leaves that
order unchanged. -/
theorem triggers_in_block_order (b : Codec.Block) :
    (triggers_in_block b).trigger_data
      = (instruction_infos b).map SolanaTrigger.instruction ++ [SolanaTrigger.block b] := by
  show List.mergeSort _ _ = _
  exact List.mergeSort_of_sorted (pairwise_le_instructions_block b (instruction_infos b))
